import Mathlib

/-!
Shallow embedding of the process-control core of the sdb debugger
(crates sdb and its CLI wrapper): the Error Channel Codec over the
launch pipe (src/sdb/src/error.rs), and the Launch / Attach / Resume /
Teardown protocols of the Process handle (src/sdb/src/process/mod.rs).

OS effects (pipe2, fork, ptrace, execvp, waitpid, kill, pipe reads and
writes) are modelled by explicit environment records carrying each
call's outcome; byte buffers are lists of naturals (one per byte).
-/

namespace Sdb

/-! ## Byte-level model of the bincode 1.x legacy encoding
(fixed-width integers, little endian, u32 enum variant tags,
u64 length-prefixed byte strings, trailing bytes allowed on decode). -/

/-- Little-endian bytes of a 32-bit unsigned value. -/
def u32le (n : Nat) : List Nat :=
  [n % 256, n / 256 % 256, n / 65536 % 256, n / 16777216 % 256]

/-- Little-endian bytes of an i32 written two's complement, as the
custom serializer for nix Errno does (serialize_i32 of the raw code). -/
def i32le (i : Int) : List Nat :=
  u32le ((i % 4294967296).toNat)

/-- Little-endian bytes of a 64-bit unsigned value. -/
def u64le (n : Nat) : List Nat :=
  [n % 256, n / 256 % 256, n / 65536 % 256, n / 16777216 % 256,
   n / 4294967296 % 256, n / 1099511627776 % 256,
   n / 281474976710656 % 256, n / 72057594037927936 % 256]

/-- Decode a little-endian u32 from the front of a byte list. -/
def readU32 : List Nat → Option (Nat × List Nat)
  | b0 :: b1 :: b2 :: b3 :: rest =>
      some (b0 + 256 * b1 + 65536 * b2 + 16777216 * b3, rest)
  | _ => none

/-- Decode a little-endian two's-complement i32 from the front of a byte list. -/
def readI32 (bs : List Nat) : Option (Int × List Nat) :=
  (readU32 bs).map fun p =>
    (if p.1 < 2147483648 then (p.1 : Int) else (p.1 : Int) - 4294967296, p.2)

/-- Decode a little-endian u64 from the front of a byte list. -/
def readU64 : List Nat → Option (Nat × List Nat)
  | b0 :: b1 :: b2 :: b3 :: b4 :: b5 :: b6 :: b7 :: rest =>
      some (b0 + 256 * b1 + 65536 * b2 + 16777216 * b3
              + 4294967296 * b4 + 1099511627776 * b5
              + 281474976710656 * b6 + 72057594037927936 * b7, rest)
  | _ => none

/-- Take exactly n bytes from the front of a byte list. -/
def readBytes (n : Nat) (bs : List Nat) : Option (List Nat × List Nat) :=
  if n ≤ bs.length then some (bs.take n, bs.drop n) else none

/-! ## The SdbError enum (src/sdb/src/error.rs)
Errno payloads are carried as Int (the raw i32 the custom serde codec
writes); message payloads of SerializeErr and DeserializeErr are carried
as their UTF-8 bytes. Variant order matches the Rust declaration order,
which fixes the bincode variant tags 0..11. -/

inductive SdbError where
  | CouldNotCreatePipe (source : Int)
  | ForkFailed (source : Int)
  | TracingFailed (source : Int)
  | ExecFailed (source : Int)
  | WaitpidFailed (source : Int)
  | CouldNotResume (source : Int)
  | CouldNotAttach (source : Int)
  | Null
  | SerializeErr (msg : List Nat)
  | WriteFd
  | DeserializeErr (msg : List Nat)
  | ReadFd
deriving DecidableEq

/-- bincode serialization of SdbError: u32 variant tag, then the payload
(i32 for the errno-carrying variants, u64 length plus bytes for the
string-carrying variants, nothing for unit variants). -/
def serialize : SdbError → List Nat
  | .CouldNotCreatePipe e => u32le 0 ++ i32le e
  | .ForkFailed e => u32le 1 ++ i32le e
  | .TracingFailed e => u32le 2 ++ i32le e
  | .ExecFailed e => u32le 3 ++ i32le e
  | .WaitpidFailed e => u32le 4 ++ i32le e
  | .CouldNotResume e => u32le 5 ++ i32le e
  | .CouldNotAttach e => u32le 6 ++ i32le e
  | .Null => u32le 7
  | .SerializeErr m => u32le 8 ++ u64le m.length ++ m
  | .WriteFd => u32le 9
  | .DeserializeErr m => u32le 10 ++ u64le m.length ++ m
  | .ReadFd => u32le 11

/-- bincode deserialization of SdbError; none models a bincode decode
error. Trailing bytes after the decoded value are permitted, as with the
legacy bincode deserialize used by the source. -/
def deserialize (bs : List Nat) : Option SdbError :=
  match readU32 bs with
  | none => none
  | some (tag, rest) =>
    match tag with
    | 0 => (readI32 rest).map fun p => .CouldNotCreatePipe p.1
    | 1 => (readI32 rest).map fun p => .ForkFailed p.1
    | 2 => (readI32 rest).map fun p => .TracingFailed p.1
    | 3 => (readI32 rest).map fun p => .ExecFailed p.1
    | 4 => (readI32 rest).map fun p => .WaitpidFailed p.1
    | 5 => (readI32 rest).map fun p => .CouldNotResume p.1
    | 6 => (readI32 rest).map fun p => .CouldNotAttach p.1
    | 7 => some .Null
    | 8 =>
      match readU64 rest with
      | none => none
      | some (n, r2) => (readBytes n r2).map fun p => .SerializeErr p.1
    | 9 => some .WriteFd
    | 10 =>
      match readU64 rest with
      | none => none
      | some (n, r2) => (readBytes n r2).map fun p => .DeserializeErr p.1
    | 11 => some .ReadFd
    | _ => none

/-! ## The file-descriptor read and write helpers of SdbError. -/

/-- Outcome of the nix read call on the pipe's read end: either the call
fails at the OS level, or it succeeds and delivers the bytes available
in the pipe. -/
inductive ReadResult where
  | failed
  | ok (content : List Nat)

/-- The 1024-byte buffer wait_read_from_fd reads into: it is
zero-initialized, and the read copies at most 1024 content bytes over
its front. -/
def mkBuffer (content : List Nat) : List Nat :=
  content.take 1024 ++ List.replicate (1024 - content.length) 0

/-- SdbError.wait_read_from_fd: a failed read yields Ok(Some(ReadFd)); a
buffer left all zero yields Ok(None) (read as "no message"); otherwise
the buffer is deserialized and both a decoded message and a decode
failure yield Ok(Some ...). The decode-failure message text produced by
bincode is abstracted to the empty byte string. -/
def wait_read_from_fd : ReadResult → Except SdbError (Option SdbError)
  | .failed => .ok (some .ReadFd)
  | .ok content =>
    if (mkBuffer content).all (fun x => x == 0) then .ok none
    else
      match deserialize (mkBuffer content) with
      | some e => .ok (some e)
      | none => .ok (some (.DeserializeErr []))

/-- SdbError.write_to_fd: bincode serialization of these variants cannot
fail, so the only failure is the nix write call, reported as WriteFd; on
success the encoded bytes land in the pipe and are returned here. -/
def write_to_fd (e : SdbError) (writeOk : Bool) : Except SdbError (List Nat) :=
  if writeOk then .ok (serialize e) else .error .WriteFd

/-- One write followed by one read on the same pipe, with both OS calls
succeeding: the codec round trip of the Error Channel. -/
def roundTrip (e : SdbError) : Except SdbError (Option SdbError) :=
  match write_to_fd e true with
  | .error we => .error we
  | .ok bytes => wait_read_from_fd (.ok bytes)

/-! ## The process model (src/sdb/src/process/mod.rs)
Pids and errnos are Int (raw i32 values); signals and wait statuses
mirror the nix enums used by the source. -/

/-- The signals the teardown and launch paths mention, plus the rest of
the signal space. -/
inductive Signal where
  | SIGSTOP
  | SIGCONT
  | SIGKILL
  | other (n : Nat)
deriving DecidableEq

/-- nix WaitStatus, the type of the state field of Process. -/
inductive WaitStatus where
  | Exited (pid : Int) (code : Int)
  | Signaled (pid : Int) (sig : Signal) (coreDumped : Bool)
  | Stopped (pid : Int) (sig : Signal)
  | PtraceEvent (pid : Int) (sig : Signal) (event : Int)
  | PtraceSyscall (pid : Int)
  | Continued (pid : Int)
  | StillAlive
deriving DecidableEq

/-- The Process handle: pid, the terminate_on_end flag decided at
construction, and the last observed wait status. -/
structure Process where
  pid : Int
  terminate_on_end : Bool
  state : WaitStatus
deriving DecidableEq

/-- The derived Clone implementation of Process: a field-for-field copy,
producing a second handle over the same pid. -/
def Process.clone (p : Process) : Process :=
  { pid := p.pid, terminate_on_end := p.terminate_on_end, state := p.state }

/-- wait_on_signal: waitpid with the error wrapped as WaitpidFailed. The
argument is the outcome the kernel gives the waitpid call. -/
def wait_on_signal (r : Except Int WaitStatus) : Except SdbError WaitStatus :=
  match r with
  | .error e => .error (.WaitpidFailed e)
  | .ok st => .ok st

/-- Outcomes of every OS call a single launch invocation can make, in
the parent and in the child. Errors are raw errno values. -/
structure LaunchEnv where
  /-- pipe2 with O_CLOEXEC. -/
  pipeRes : Except Int Unit
  /-- fork; on success the parent sees the child pid. -/
  forkRes : Except Int Int
  /-- ptrace traceme in the child. -/
  tracemeRes : Except Int Unit
  /-- the child's pipe write after a traceme failure. -/
  tracemeWriteOk : Bool
  /-- execvp in the child; ok means the image was replaced. -/
  execRes : Except Int Unit
  /-- the child's pipe write after an execvp failure. -/
  execWriteOk : Bool
  /-- whether the parent's read on the pipe fails at the OS level. -/
  readFails : Bool
  /-- the outcome of the parent's waitpid in wait_on_signal. -/
  waitRes : Except Int WaitStatus

/-- How the forked child ends up: terminating itself via exit, having
its image replaced by a successful execvp, or returning an error from
the fork closure into the code of launch's caller (which the child
duplicated). Each outcome carries the bytes the child wrote to the
pipe. -/
inductive ChildOutcome where
  | exited (status : Int) (written : List Nat)
  | execed (written : List Nat)
  | returned (err : SdbError) (written : List Nat)
deriving DecidableEq

/-- Bytes the child left in the pipe. -/
def ChildOutcome.written : ChildOutcome → List Nat
  | .exited _ w => w
  | .execed w => w
  | .returned _ w => w

/-- The ForkResult::Child arm of launch: traceme, then the CString NUL
check, then execvp; each failure is encoded and written to the pipe and
followed by exit(-1), except that a failing pipe write propagates out of
the child's copy of launch via the question-mark operator, and a failing
CString conversion (embedded NUL byte) does the same with Null. -/
def childRun (path : List Nat) (env : LaunchEnv) : ChildOutcome :=
  match env.tracemeRes with
  | .error e =>
      match write_to_fd (.TracingFailed e) env.tracemeWriteOk with
      | .ok bytes => .exited (-1) bytes
      | .error we => .returned we []
  | .ok _ =>
      if path.contains 0 then .returned .Null []
      else
        match env.execRes with
        | .ok _ => .execed []
        | .error e =>
            match write_to_fd (.ExecFailed e) env.execWriteOk with
            | .ok bytes => .exited (-1) bytes
            | .error we => .returned we []

/-- Observable parent-side events of one launch invocation, in program
order. -/
inductive Event where
  | pipeCreated
  | forked (childPid : Int)
  | waitCalled (pid : Int)
deriving DecidableEq

/-- Process::launch seen from the parent: create the pipe, fork, close
the write end, read the pipe; any message read is returned as the error
after a discarded wait on the child; otherwise the handle is built with
terminate_on_end true and a state that is either the first wait result
(debug) or a synthesized Stopped(pid, SIGSTOP) without waiting. The
debug flag is the wait_for_initial_stop switch. -/
def launch (path : List Nat) (debug : Bool) (env : LaunchEnv) :
    Except SdbError Process × List Event :=
  match env.pipeRes with
  | .error e => (.error (.CouldNotCreatePipe e), [])
  | .ok _ =>
    match env.forkRes with
    | .error e => (.error (.ForkFailed e), [.pipeCreated])
    | .ok childPid =>
      match wait_read_from_fd
          (if env.readFails then .failed
           else .ok (childRun path env).written) with
      | .ok (some err) =>
          (.error err, [.pipeCreated, .forked childPid, .waitCalled childPid])
      | _ =>
          if debug then
            match wait_on_signal env.waitRes with
            | .error e =>
                (.error e,
                 [.pipeCreated, .forked childPid, .waitCalled childPid])
            | .ok st =>
                (.ok { pid := childPid, terminate_on_end := true, state := st },
                 [.pipeCreated, .forked childPid, .waitCalled childPid])
          else
            (.ok { pid := childPid, terminate_on_end := true,
                   state := .Stopped childPid .SIGSTOP },
             [.pipeCreated, .forked childPid])

/-- Outcomes of the OS calls one attach invocation makes. -/
structure AttachEnv where
  /-- ptrace attach. -/
  attachRes : Except Int Unit
  /-- the waitpid in wait_on_signal. -/
  waitRes : Except Int WaitStatus

/-- Process::attach: ptrace attach, then block on wait_on_signal; the
handle gets terminate_on_end true. -/
def attach (pid : Int) (env : AttachEnv) : Except SdbError Process :=
  match env.attachRes with
  | .error e => .error (.CouldNotAttach e)
  | .ok _ =>
    match wait_on_signal env.waitRes with
    | .error e => .error e
    | .ok st => .ok { pid := pid, terminate_on_end := true, state := st }

/-- Outcomes of the OS calls one resume invocation makes. -/
structure ResumeEnv where
  /-- ptrace cont. -/
  contRes : Except Int Unit
  /-- the waitpid in wait_on_signal. -/
  waitRes : Except Int WaitStatus

/-- Process::resume: ptrace cont (failure wrapped as CouldNotResume),
then wait_on_signal with the result assigned to state; the updated
handle is returned alongside the result. -/
def resume (p : Process) (env : ResumeEnv) : Except SdbError Unit × Process :=
  match env.contRes with
  | .error e => (.error (.CouldNotResume e), p)
  | .ok _ =>
    match wait_on_signal env.waitRes with
    | .error e => (.error e, p)
    | .ok st => (.ok (), { p with state := st })

/-- Which of the teardown's OS calls fail; drop only logs these
failures through the feature-gated tracing sink, so they steer nothing. -/
structure DropEnv where
  stopKillFails : Bool
  detachFails : Bool
  contKillFails : Bool
  termKillFails : Bool
deriving DecidableEq

/-- The OS calls teardown can issue. -/
inductive DropEvent where
  | kill (pid : Int) (sig : Signal)
  | waitpidCalled (pid : Int)
  | detach (pid : Int)
deriving DecidableEq

/-- The Drop implementation of Process as the sequence of OS calls it
issues: nothing when pid is the raw-0 sentinel; otherwise SIGSTOP plus a
wait when state is StillAlive, then an unconditional ptrace detach and a
SIGCONT, then SIGKILL plus a reaping wait when terminate_on_end. Each
call's failure is only logged, so the sequence never depends on the
environment and no error can escape. -/
def dropRun (p : Process) (_env : DropEnv) : List DropEvent :=
  if p.pid ≠ 0 then
    (if p.state = .StillAlive
     then [.kill p.pid .SIGSTOP, .waitpidCalled p.pid]
     else [])
    ++ [.detach p.pid, .kill p.pid .SIGCONT]
    ++ (if p.terminate_on_end
        then [.kill p.pid .SIGKILL, .waitpidCalled p.pid]
        else [])
  else []

/-! ## Helper lemmas about the codec -/

theorem readU32_u32le (n : Nat) (rest : List Nat) (h : n < 4294967296) :
    readU32 (u32le n ++ rest) = some (n, rest) := by
  have h4 : n % 256 + 256 * (n / 256 % 256) + 65536 * (n / 65536 % 256)
      + 16777216 * (n / 16777216 % 256) = n := by omega
  simp [u32le, readU32, h4]

theorem mkBuffer_of_length_le (l : List Nat) (h : l.length ≤ 1024) :
    mkBuffer l = l ++ List.replicate (1024 - l.length) 0 := by
  unfold mkBuffer
  rw [List.take_of_length_le h]

theorem mkBuffer_all_zero_false (b : Nat) (l : List Nat) (hb : b ≠ 0) :
    (mkBuffer (b :: l)).all (fun x => x == 0) = false := by
  unfold mkBuffer
  rw [show (1024 : Nat) = 1023 + 1 from rfl, List.take_succ_cons,
    List.cons_append, List.all_cons]
  simp [hb]

theorem serialize_TracingFailed_cons (e : Int) :
    serialize (.TracingFailed e) = 2 :: 0 :: 0 :: 0 :: i32le e := rfl

theorem serialize_ExecFailed_cons (e : Int) :
    serialize (.ExecFailed e) = 3 :: 0 :: 0 :: 0 :: i32le e := rfl

theorem wait_read_some_of_nonzero_head (b : Nat) (l : List Nat) (hb : b ≠ 0) :
    ∃ e, wait_read_from_fd (.ok (b :: l)) = .ok (some e) := by
  rw [wait_read_from_fd, mkBuffer_all_zero_false b l hb]
  cases hdes : deserialize (mkBuffer (b :: l)) with
  | none => exact ⟨.DeserializeErr [], by simp [hdes]⟩
  | some e => exact ⟨e, by simp [hdes]⟩

theorem readI32_i32le (e : Int) (rest : List Nat) (h0 : 0 ≤ e)
    (h1 : e < 2147483648) :
    readI32 (i32le e ++ rest) = some (e, rest) := by
  unfold i32le readI32
  rw [Int.emod_eq_of_lt h0 (by omega)]
  rw [readU32_u32le e.toNat rest (by omega)]
  have ht : e.toNat < 2147483648 := by omega
  simp [ht, Int.toNat_of_nonneg h0]

theorem deserialize_tag2 (rest : List Nat) :
    deserialize (2 :: 0 :: 0 :: 0 :: rest)
      = (readI32 rest).map fun p => .TracingFailed p.1 := by
  simp [deserialize, readU32]

theorem deserialize_tag3 (rest : List Nat) :
    deserialize (3 :: 0 :: 0 :: 0 :: rest)
      = (readI32 rest).map fun p => .ExecFailed p.1 := by
  simp [deserialize, readU32]

theorem deserialize_mkBuffer_TracingFailed (e : Int) (h0 : 0 ≤ e)
    (h1 : e < 2147483648) :
    deserialize (mkBuffer (serialize (.TracingFailed e)))
      = some (.TracingFailed e) := by
  have hlen : (serialize (.TracingFailed e)).length = 8 := by
    rw [serialize_TracingFailed_cons]
    simp [i32le, u32le]
  rw [mkBuffer_of_length_le _ (by rw [hlen]; norm_num)]
  rw [serialize_TracingFailed_cons]
  simp only [List.cons_append]
  rw [deserialize_tag2, readI32_i32le _ _ h0 h1]
  rfl

theorem deserialize_mkBuffer_ExecFailed (e : Int) (h0 : 0 ≤ e)
    (h1 : e < 2147483648) :
    deserialize (mkBuffer (serialize (.ExecFailed e)))
      = some (.ExecFailed e) := by
  have hlen : (serialize (.ExecFailed e)).length = 8 := by
    rw [serialize_ExecFailed_cons]
    simp [i32le, u32le]
  rw [mkBuffer_of_length_le _ (by rw [hlen]; norm_num)]
  rw [serialize_ExecFailed_cons]
  simp only [List.cons_append]
  rw [deserialize_tag3, readI32_i32le _ _ h0 h1]
  rfl

/-! ## Helper lemmas about the child branch of launch -/

theorem childRun_written_shape (path : List Nat) (env : LaunchEnv) :
    (childRun path env).written = [] ∨
    (∃ e, (childRun path env).written = serialize (.TracingFailed e)) ∨
    (∃ e, (childRun path env).written = serialize (.ExecFailed e)) := by
  unfold childRun write_to_fd
  cases htr : env.tracemeRes with
  | error e =>
    cases hw : env.tracemeWriteOk with
    | false => simp [ChildOutcome.written]
    | true =>
      right; left
      exact ⟨e, by simp [ChildOutcome.written]⟩
  | ok u =>
    by_cases hp : (0 : Nat) ∈ path
    · simp [hp, ChildOutcome.written]
    · cases hex : env.execRes with
      | ok v => simp [hp, ChildOutcome.written]
      | error e =>
        cases hw : env.execWriteOk with
        | false => simp [hp, ChildOutcome.written]
        | true =>
          right; right
          exact ⟨e, by simp [hp, ChildOutcome.written]⟩

/-! ## Helper lemmas about launch, attach and teardown -/

theorem wait_read_from_fd_isOk (r : ReadResult) :
    ∃ v, wait_read_from_fd r = .ok v := by
  cases r with
  | failed => exact ⟨some .ReadFd, rfl⟩
  | ok content =>
    unfold wait_read_from_fd
    by_cases hz : (mkBuffer content).all (fun x => x == 0)
    · exact ⟨none, by simp [hz]⟩
    · cases hdes : deserialize (mkBuffer content) with
      | some e => exact ⟨some e, by simp [hz, hdes]⟩
      | none => exact ⟨some (.DeserializeErr []), by simp [hz, hdes]⟩

theorem launch_ok_shape (path : List Nat) (debug : Bool) (env : LaunchEnv)
    (h : Process) (hok : (launch path debug env).1 = .ok h) :
    ∃ cpid, env.forkRes = .ok cpid ∧ h.pid = cpid ∧
      h.terminate_on_end = true ∧
      ((debug = true ∧ env.waitRes = .ok h.state ∧
          (launch path debug env).2 =
            [.pipeCreated, .forked cpid, .waitCalled cpid]) ∨
       (debug = false ∧ h.state = .Stopped cpid .SIGSTOP ∧
          (launch path debug env).2 = [.pipeCreated, .forked cpid])) := by
  cases hpipe : env.pipeRes with
  | error e => simp [launch, hpipe] at hok
  | ok u =>
  cases hfork : env.forkRes with
  | error e => simp [launch, hpipe, hfork] at hok
  | ok cpid =>
  obtain ⟨v, hv⟩ := wait_read_from_fd_isOk
    (if env.readFails then .failed else .ok (childRun path env).written)
  refine ⟨cpid, rfl, ?_⟩
  cases v with
  | some err => simp [launch, hpipe, hfork, hv] at hok
  | none =>
    cases debug with
    | true =>
      cases hw : env.waitRes with
      | error e => simp [launch, wait_on_signal, hpipe, hfork, hv, hw] at hok
      | ok st =>
        simp [launch, wait_on_signal, hpipe, hfork, hv, hw] at hok
        subst hok
        refine ⟨rfl, rfl, Or.inl ⟨rfl, rfl, ?_⟩⟩
        simp [launch, wait_on_signal, hpipe, hfork, hv, hw]
    | false =>
      simp [launch, hpipe, hfork, hv] at hok
      subst hok
      refine ⟨rfl, rfl, Or.inr ⟨rfl, rfl, ?_⟩⟩
      simp [launch, hpipe, hfork, hv]

theorem launch_err_of_written_nonempty (path : List Nat) (debug : Bool)
    (env : LaunchEnv) (cpid : Int)
    (hpipe : env.pipeRes = .ok ()) (hfork : env.forkRes = .ok cpid)
    (hread : env.readFails = false)
    (hw : (childRun path env).written ≠ []) :
    ∃ e, wait_read_from_fd (.ok (childRun path env).written) = .ok (some e) ∧
      launch path debug env =
        (.error e, [.pipeCreated, .forked cpid, .waitCalled cpid]) := by
  have hsome : ∃ e, wait_read_from_fd (.ok (childRun path env).written)
      = .ok (some e) := by
    rcases childRun_written_shape path env with hsh | ⟨e, hsh⟩ | ⟨e, hsh⟩
    · exact absurd hsh hw
    · rw [hsh, serialize_TracingFailed_cons]
      exact wait_read_some_of_nonzero_head 2 _ (by norm_num)
    · rw [hsh, serialize_ExecFailed_cons]
      exact wait_read_some_of_nonzero_head 3 _ (by norm_num)
  obtain ⟨e, he⟩ := hsome
  refine ⟨e, he, ?_⟩
  simp [launch, hpipe, hfork, hread, he]

theorem kill_sigstop_not_mem (h : Process) (denv : DropEnv)
    (hst : h.state ≠ .StillAlive) :
    DropEvent.kill h.pid .SIGSTOP ∉ dropRun h denv := by
  unfold dropRun
  by_cases hp : h.pid = 0
  · simp [hp]
  · cases hterm : h.terminate_on_end <;> simp [hp, hst, hterm]

/-! ## Concrete fixtures used by the claim theorems -/

/-- The path bytes of a\x00b, a path with an embedded NUL byte. -/
def nulPath : List Nat := [97, 0, 98]

/-- The path bytes of /bin, a NUL-free path. -/
def binPath : List Nat := [47, 98, 105, 110]

/-- A launch environment in which every OS call succeeds. -/
def allOkEnv : LaunchEnv :=
  { pipeRes := .ok (), forkRes := .ok 100, tracemeRes := .ok (),
    tracemeWriteOk := true, execRes := .ok (), execWriteOk := true,
    readFails := false, waitRes := .ok (.Stopped 100 (.other 5)) }

/-- A launch environment in which the child's traceme call fails with
errno 5 and the child's subsequent pipe write also fails. -/
def tracemeThenWriteFailEnv : LaunchEnv :=
  { pipeRes := .ok (), forkRes := .ok 100, tracemeRes := .error 5,
    tracemeWriteOk := false, execRes := .ok (), execWriteOk := true,
    readFails := false, waitRes := .ok (.Stopped 100 (.other 5)) }

/-- A launch environment in which the child's traceme call fails with
errno 5 and everything else succeeds. -/
def tracemeFailEnv : LaunchEnv :=
  { pipeRes := .ok (), forkRes := .ok 100, tracemeRes := .error 5,
    tracemeWriteOk := true, execRes := .ok (), execWriteOk := true,
    readFails := false, waitRes := .ok (.Stopped 100 (.other 5)) }

/-! ## The claims -/

set_option maxRecDepth 10000 in
/-- C1: the Error Channel Codec round trip does not always return the
written message: the legitimate message CouldNotCreatePipe carrying raw
OS error 0 serializes to eight zero bytes, and reading it back yields
Ok(None), the "no message" answer, because wait_read_from_fd infers
emptiness from an all-zero buffer. This refutes the claim that writing
any message m and reading it back yields Some(m) and never None. -/
theorem roundTrip_allzero_message_lost :
    serialize (.CouldNotCreatePipe 0) = [0, 0, 0, 0, 0, 0, 0, 0] ∧
    roundTrip (.CouldNotCreatePipe 0) = .ok none := ⟨rfl, rfl⟩

set_option maxRecDepth 10000 in
/-- C2: launching a path with an embedded NUL byte does not fail before
process creation: with every OS call succeeding, the pipe is created and
the process is forked, the NUL check only runs inside the child after a
successful traceme, the child branch returns Err(Null) into the code of
launch's caller (in the child's copy of the program), and the parent's
launch returns Ok with a process handle instead of an error. -/
theorem launch_nul_path_still_forks :
    childRun nulPath allOkEnv = .returned .Null [] ∧
    launch nulPath false allOkEnv =
      (.ok { pid := 100, terminate_on_end := true,
             state := .Stopped 100 .SIGSTOP },
       [.pipeCreated, .forked 100]) := ⟨rfl, rfl⟩

/-- C3: the derived Clone implementation on Process is part of the
public interface and yields, from any handle, a second handle with the
same pid; at teardown both handles issue the identical detach and kill
sequence against that one pid, so two handles can independently own the
same pid. -/
theorem clone_duplicates_pid_ownership (p : Process) (env : DropEnv) :
    (Process.clone p).pid = p.pid ∧
    dropRun (Process.clone p) env = dropRun p env := ⟨rfl, rfl⟩

/-- A drop environment in which every teardown OS call succeeds. -/
def quietDropEnv : DropEnv :=
  { stopKillFails := false, detachFails := false,
    contKillFails := false, termKillFails := false }

/-- A process handle value stopped by a job-control signal. -/
def procStopped7 : Process :=
  { pid := 7, terminate_on_end := true, state := .Stopped 7 (.other 19) }

/-- C4: the teardown of a Process issues no OS call exactly when pid is
the sentinel 0; otherwise it issues, in order, a SIGSTOP plus a blocking
wait when the state still reads StillAlive (the never-observed-stopped
indicator), then an unconditional ptrace detach followed by a SIGCONT,
then, exactly when terminate_on_end holds, a SIGKILL plus a reaping
wait. The call sequence never depends on which of these calls fail, and
the teardown has no error result at all, so no failure propagates. -/
theorem teardown_sequence (p : Process) (env env' : DropEnv) :
    (dropRun p env = [] ↔ p.pid = 0) ∧
    (p.pid ≠ 0 → dropRun p env =
      (if p.state = .StillAlive
       then [.kill p.pid .SIGSTOP, .waitpidCalled p.pid] else [])
      ++ [.detach p.pid, .kill p.pid .SIGCONT]
      ++ (if p.terminate_on_end
          then [.kill p.pid .SIGKILL, .waitpidCalled p.pid] else [])) ∧
    dropRun p env = dropRun p env' := by
  refine ⟨?_, fun h => by simp [dropRun, h], rfl⟩
  unfold dropRun
  by_cases hp : p.pid = 0
  · simp [hp]
  · simp [hp]

/-- Closed instance of the teardown characterization: a handle with pid
7, state StillAlive and terminate_on_end true issues the full six-call
sequence. -/
theorem teardown_sequence_witness :
    dropRun { pid := 7, terminate_on_end := true, state := .StillAlive }
        quietDropEnv =
      [.kill 7 .SIGSTOP, .waitpidCalled 7, .detach 7, .kill 7 .SIGCONT,
       .kill 7 .SIGKILL, .waitpidCalled 7] := by
  have h := (teardown_sequence
    { pid := 7, terminate_on_end := true, state := .StillAlive }
    quietDropEnv quietDropEnv).2.1 (by decide)
  exact h.trans (by decide)

/-- C5: resume first issues the continue request: if it is rejected the
result is CouldNotResume (the ResumeFailed of the claim) and the handle
is returned untouched; if the subsequent wait fails the result is
WaitpidFailed (the WaitFailed of the claim) and the handle is again
returned untouched, since the state assignment happens after the wait
succeeds; on success the state becomes the reported wait status, with
pid and terminate_on_end unchanged, and the result is unit. -/
theorem resume_error_atomic (p : Process) (env : ResumeEnv) :
    (∀ e, env.contRes = .error e →
        resume p env = (.error (.CouldNotResume e), p)) ∧
    (∀ u e, env.contRes = .ok u → env.waitRes = .error e →
        resume p env = (.error (.WaitpidFailed e), p)) ∧
    (∀ u st, env.contRes = .ok u → env.waitRes = .ok st →
        resume p env =
          (.ok (), { pid := p.pid, terminate_on_end := p.terminate_on_end,
                     state := st })) := by
  refine ⟨?_, ?_, ?_⟩ <;> intros <;> simp_all [resume, wait_on_signal]

/-- Closed instance of the resume characterization: a rejected continue
request with errno 3 yields CouldNotResume and leaves the handle as it
was. -/
theorem resume_error_atomic_witness :
    resume procStopped7 { contRes := .error 3, waitRes := .ok .StillAlive } =
      (.error (.CouldNotResume 3), procStopped7) :=
  (resume_error_atomic procStopped7
    { contRes := .error 3, waitRes := .ok .StillAlive }).1 3 rfl

/-- An attach environment in which both OS calls succeed. -/
def aEnvOk : AttachEnv :=
  { attachRes := .ok (), waitRes := .ok (.Stopped 7 (.other 19)) }

/-- A resume environment in which both OS calls succeed. -/
def rEnvOk : ResumeEnv :=
  { contRes := .ok (), waitRes := .ok (.Exited 7 0) }

/-- The handle the no-wait launch path builds for child pid 100. -/
def procLaunched : Process :=
  { pid := 100, terminate_on_end := true, state := .Stopped 100 .SIGSTOP }

/-- C6: with the pipe created and the fork done, (1) whenever the child
left any bytes in the pipe and the parent's read succeeds, the parent
returns the decoded Error Channel Message as launch's error, and a
blocking wait on the child pid is issued before the return (its result
discarded: the environment's wait outcome does not influence the
returned error); (2) on every launch error path after the fork, a wait
on the child pid is issued before the error is returned; (3) in
particular a child-side traceme failure with errno e whose pipe write
succeeded is decoded back to exactly TracingFailed e and returned. -/
theorem launch_error_reaps_and_decodes (path : List Nat) (debug : Bool)
    (env : LaunchEnv) (cpid : Int)
    (hpipe : env.pipeRes = .ok ()) (hfork : env.forkRes = .ok cpid) :
    ((childRun path env).written ≠ [] → env.readFails = false →
      ∃ e, wait_read_from_fd (.ok (childRun path env).written) = .ok (some e) ∧
        launch path debug env =
          (.error e, [.pipeCreated, .forked cpid, .waitCalled cpid])) ∧
    (∀ e, (launch path debug env).1 = .error e →
      Event.waitCalled cpid ∈ (launch path debug env).2) ∧
    (∀ e : Int, 0 ≤ e → e < 2147483648 → env.tracemeRes = .error e →
      env.tracemeWriteOk = true → env.readFails = false →
      launch path debug env =
        (.error (.TracingFailed e),
         [.pipeCreated, .forked cpid, .waitCalled cpid])) := by
  refine ⟨fun hw hrf =>
    launch_err_of_written_nonempty path debug env cpid hpipe hfork hrf hw,
    ?_, ?_⟩
  · intro e herr
    obtain ⟨v, hv⟩ := wait_read_from_fd_isOk
      (if env.readFails then .failed else .ok (childRun path env).written)
    cases v with
    | some err => simp [launch, hpipe, hfork, hv]
    | none =>
      cases debug with
      | false => simp [launch, hpipe, hfork, hv] at herr
      | true =>
        cases hwr : env.waitRes with
        | error e2 => simp [launch, hpipe, hfork, hv, wait_on_signal, hwr]
        | ok st => simp [launch, hpipe, hfork, hv, wait_on_signal, hwr] at herr
  · intro e h0 h1 htr htw hrf
    have hwr : (childRun path env).written = serialize (.TracingFailed e) := by
      simp [childRun, htr, write_to_fd, htw, ChildOutcome.written]
    have hz : (mkBuffer (serialize (SdbError.TracingFailed e))).all
        (fun x => x == 0) = false := by
      rw [serialize_TracingFailed_cons]
      exact mkBuffer_all_zero_false 2 _ (by norm_num)
    have hread : wait_read_from_fd (.ok (serialize (.TracingFailed e)))
        = .ok (some (.TracingFailed e)) := by
      simp [wait_read_from_fd, hz, deserialize_mkBuffer_TracingFailed e h0 h1]
    simp [launch, hpipe, hfork, hrf, hwr, hread]

/-- Closed instance of the parent-side handling: a traceme failure with
errno 5 relayed through the pipe makes launch return TracingFailed 5
after the reaping wait on child pid 100. -/
theorem launch_error_reaps_and_decodes_witness :
    launch binPath false tracemeFailEnv =
      (.error (.TracingFailed 5),
       [.pipeCreated, .forked 100, .waitCalled 100]) :=
  (launch_error_reaps_and_decodes binPath false tracemeFailEnv 100
    rfl rfl).2.2 5 (by norm_num) (by norm_num) rfl rfl rfl

/-- C8: every handle launch returns has terminate_on_end true; when the
initial-stop wait was requested (debug true) its state is the status the
Wait Primitive reported; when it was not requested, its state is the
synthesized Stopped(pid, SIGSTOP) and the event trace contains no wait
call at all. -/
theorem launch_success_state (path : List Nat) (debug : Bool)
    (env : LaunchEnv) (h : Process)
    (hok : (launch path debug env).1 = .ok h) :
    h.terminate_on_end = true ∧
    (debug = true → env.waitRes = .ok h.state) ∧
    (debug = false → h.state = .Stopped h.pid .SIGSTOP ∧
        ∀ q, Event.waitCalled q ∉ (launch path debug env).2) := by
  obtain ⟨cpid, hfork, hpid, hterm, hcase⟩ := launch_ok_shape path debug env h hok
  refine ⟨hterm, ?_, ?_⟩
  · intro hd
    rcases hcase with ⟨_, hwr, _⟩ | ⟨hd2, _, _⟩
    · exact hwr
    · rw [hd] at hd2; exact absurd hd2 (by decide)
  · intro hd
    rcases hcase with ⟨hd2, _, _⟩ | ⟨_, hst, hev⟩
    · rw [hd] at hd2; exact absurd hd2 (by decide)
    · refine ⟨by rw [hpid, hst], ?_⟩
      intro q
      rw [hev]
      simp

set_option maxRecDepth 10000 in
/-- Closed instance of the optimistic launch path: with every OS call
succeeding and no initial-stop wait requested, the handle for child pid
100 is returned with the synthesized Stopped state and no wait call
appears in the trace. -/
theorem launch_success_state_witness :
    procLaunched.terminate_on_end = true ∧
    Event.waitCalled 100 ∉ (launch binPath false allOkEnv).2 :=
  ⟨(launch_success_state binPath false allOkEnv procLaunched rfl).1,
   ((launch_success_state binPath false allOkEnv procLaunched rfl).2.2
     rfl).2 100⟩

/-- C9: wait_read_from_fd is total over its error channel: it returns
Ok on every input (a failed read as Ok(Some(ReadFd)), an all-zero buffer
as Ok(None), non-zero undecodable content as Ok(Some(DeserializeErr)));
and inside launch, whenever the child left a non-empty byte sequence in
the pipe and the parent's read succeeds, launch returns an error rather
than a handle. -/
theorem wait_read_total_and_launch_guard (r : ReadResult) (c : List Nat)
    (path : List Nat) (debug : Bool) (env : LaunchEnv) (cpid : Int) :
    (∃ v, wait_read_from_fd r = .ok v) ∧
    wait_read_from_fd .failed = .ok (some .ReadFd) ∧
    ((mkBuffer c).all (fun x => x == 0) = true →
        wait_read_from_fd (.ok c) = .ok none) ∧
    ((mkBuffer c).all (fun x => x == 0) = false →
        deserialize (mkBuffer c) = none →
        wait_read_from_fd (.ok c) = .ok (some (.DeserializeErr []))) ∧
    (env.pipeRes = .ok () → env.forkRes = .ok cpid →
        env.readFails = false → (childRun path env).written ≠ [] →
        ∃ e, (launch path debug env).1 = .error e) := by
  refine ⟨wait_read_from_fd_isOk r, rfl, ?_, ?_, ?_⟩
  · intro hz
    simp [wait_read_from_fd, hz]
  · intro hz hdes
    simp [wait_read_from_fd, hz, hdes]
  · intro hpipe hfork hrf hw
    obtain ⟨e, _, hl⟩ :=
      launch_err_of_written_nonempty path debug env cpid hpipe hfork hrf hw
    exact ⟨e, by rw [hl]⟩

/-- Closed instance of the non-empty-content guard: a relayed traceme
failure makes launch return an error rather than a handle. -/
theorem wait_read_total_and_launch_guard_witness :
    ∃ e, (launch binPath false tracemeFailEnv).1 = .error e :=
  (wait_read_total_and_launch_guard (.ok []) [] binPath false
    tracemeFailEnv 100).2.2.2.2 rfl rfl rfl (by decide)

/-- C10: under the blocking-wait guarantee that a successful waitpid
without WNOHANG never reports StillAlive, every handle launch or attach
returns has a state other than StillAlive, and every successful resume
leaves a state other than StillAlive; consequently teardown's first step
(the SIGSTOP plus wait pair, guarded by state = StillAlive) is never
issued for such a handle. -/
theorem handles_never_still_alive
    (path : List Nat) (debug : Bool) (lenv : LaunchEnv)
    (apid : Int) (aenv : AttachEnv) (p : Process) (renv : ResumeEnv)
    (denv : DropEnv)
    (hl : ∀ st, lenv.waitRes = .ok st → st ≠ .StillAlive)
    (ha : ∀ st, aenv.waitRes = .ok st → st ≠ .StillAlive)
    (hr : ∀ st, renv.waitRes = .ok st → st ≠ .StillAlive) :
    (∀ h, (launch path debug lenv).1 = .ok h →
        h.state ≠ .StillAlive ∧
        DropEvent.kill h.pid .SIGSTOP ∉ dropRun h denv) ∧
    (∀ h, attach apid aenv = .ok h →
        h.state ≠ .StillAlive ∧
        DropEvent.kill h.pid .SIGSTOP ∉ dropRun h denv) ∧
    (∀ q, resume p renv = (.ok (), q) → q.state ≠ .StillAlive) := by
  refine ⟨?_, ?_, ?_⟩
  · intro h hok
    obtain ⟨cpid, hfork, hpid, hterm, hcase⟩ :=
      launch_ok_shape path debug lenv h hok
    have hst : h.state ≠ .StillAlive := by
      rcases hcase with ⟨_, hwr, _⟩ | ⟨_, hst, _⟩
      · exact hl h.state hwr
      · rw [hst]; simp
    exact ⟨hst, kill_sigstop_not_mem h denv hst⟩
  · intro h hok
    cases hat : aenv.attachRes with
    | error e => simp [attach, hat] at hok
    | ok u =>
      cases hwr : aenv.waitRes with
      | error e => simp [attach, hat, wait_on_signal, hwr] at hok
      | ok st =>
        simp [attach, hat, wait_on_signal, hwr] at hok
        subst hok
        have hst : st ≠ .StillAlive := ha st hwr
        exact ⟨hst, kill_sigstop_not_mem _ denv hst⟩
  · intro q hq
    cases hc : renv.contRes with
    | error e => simp [resume, hc] at hq
    | ok u =>
      cases hwr : renv.waitRes with
      | error e => simp [resume, hc, wait_on_signal, hwr] at hq
      | ok st =>
        simp [resume, hc, wait_on_signal, hwr] at hq
        subst hq
        exact hr st hwr

set_option maxRecDepth 10000 in
/-- Closed instance: the handle built by the no-wait launch path has a
state other than StillAlive and its teardown never issues the SIGSTOP
step. -/
theorem handles_never_still_alive_witness :
    procLaunched.state ≠ .StillAlive ∧
    DropEvent.kill procLaunched.pid .SIGSTOP ∉
      dropRun procLaunched quietDropEnv :=
  (handles_never_still_alive binPath false allOkEnv 7 aEnvOk
    procStopped7 rEnvOk quietDropEnv
    (fun st hst => by simp [allOkEnv] at hst; subst hst; decide)
    (fun st hst => by simp [aEnvOk] at hst; subst hst; decide)
    (fun st hst => by simp [rEnvOk] at hst; subst hst; decide)).1
    procLaunched rfl

/-- C7: when the trace-me request fails (errno 5) and the child's pipe
write also fails, the child does not terminate itself: the child branch
evaluates to returning Err(WriteFd) into the code path of launch's
caller inside the child, contradicting the claim that on a trace-me
failure the child always terminates with a nonzero status, and
contradicting the function's own doc comment, which promises a panic
when the pipe write fails. -/
theorem child_returns_into_caller_on_write_failure :
    childRun binPath tracemeThenWriteFailEnv = .returned .WriteFd [] := rfl

end Sdb
